import Mathlib

/-! Formal model of the probe search pipeline. The embedded code is
src/search/search_runner.rs together with src/main.rs; collaborator modules
that are not part of the given sources (query planner, session cache store,
ranking, limiter, merger, file list cache, per-file block extraction) are
treated as abstract parameters, or modelled from the specification where a
doc comment says so. Timing collection and debug-mode printing are omitted
(the model corresponds to runs with the DEBUG variable unset). -/

namespace Probe

/-- Term map of one file: the set of (term index, 1-based line number) pairs
recorded by the scanner. This models the `HashMap<usize, HashSet<usize>>` of
the source under the invariant that a key is present exactly when its line set
is nonempty, which the source maintains (entries are created by
`or_insert_with(HashSet::new)` immediately followed by a nonempty insert or
extend). -/
abbrev TermMap := Finset (Nat × Nat)

/-- Association list modelling `HashMap<PathBuf, TermMap>` (the Hit Map). -/
abbrev FileTermMap := List (String × TermMap)

/-- Lookup in the association-list model of a hash map. -/
def alookup (m : FileTermMap) (k : String) : Option TermMap :=
  match m with
  | [] => none
  | (k', v) :: rest => if k' = k then some v else alookup rest k

/-- Insert (replace-or-append) in the association-list model of a hash map. -/
def ainsert (m : FileTermMap) (k : String) (v : TermMap) : FileTermMap :=
  match m with
  | [] => [(k, v)]
  | (k', v') :: rest => if k' = k then (k, v) :: rest else (k', v') :: ainsert rest k v

/-- Key set of the association-list hash map (`file_term_map.keys()`). -/
def ftmKeys (m : FileTermMap) : Finset String := (m.map Prod.fst).toFinset

/-- Key set of a term map (the matched term indices of one file). -/
def keysOf (tm : TermMap) : Finset Nat := tm.image Prod.fst

/-- One source line as seen by the scanner: its byte length (`line.len()`)
and, for each match produced by `combined_regex.captures_iter(line)`, the set
of capture-group indices (1-based) that participated in that match
(`cap.get(i).is_some()`). The regex engine is external; its observable
behaviour on the line is this data. -/
structure ScanLine where
  len : Nat
  caps : List (List Nat)

/-- Inner loop of `search_file_with_combined_pattern` for one regex match:
for every capture group `i` in `1..=pattern_to_terms.len()` that participated,
record `(term_idx, line_number + 1)` for every term index associated with
pattern `i - 1`. -/
def recordMatch (patternToTerms : List (List Nat)) (lineNumber : Nat)
    (cap : List Nat) (m : TermMap) : TermMap :=
  patternToTerms.enum.foldl
    (fun acc pr =>
      if pr.1 + 1 ∈ cap then
        pr.2.foldl (fun a t => insert (t, lineNumber + 1) a) acc
      else acc)
    m

/-- Per-line step of `search_file_with_combined_pattern`: skip the line when
it exceeds 2000 bytes, otherwise record every match on it. -/
def scanLineStep (patternToTerms : List (List Nat)) (lineNumber : Nat)
    (line : ScanLine) (m : TermMap) : TermMap :=
  if line.len > 2000 then m
  else line.caps.foldl (fun acc cap => recordMatch patternToTerms lineNumber cap acc) m

/-- Model of `search_file_with_combined_pattern` (search_runner.rs lines
980-1037): fold the per-line step over the lines of the file, with 0-based
internal line numbers reported 1-based. -/
def search_file_with_combined_pattern (patternToTerms : List (List Nat))
    (lines : List ScanLine) : TermMap :=
  lines.enum.foldl (fun m pr => scanLineStep patternToTerms pr.1 pr.2 m) ∅

/-- Model of `search_with_structured_patterns` (search_runner.rs lines
880-970): for each candidate file (given as its path together with its content
when readable, `none` for an I/O error, which the source logs and skips),
insert its term map into the result exactly when that map is nonempty. -/
def search_with_structured_patterns (patternToTerms : List (List Nat))
    (files : List (String × Option (List ScanLine))) : FileTermMap :=
  files.foldl
    (fun acc pr =>
      match pr.2 with
      | none => acc
      | some lines =>
        let tm := search_file_with_combined_pattern patternToTerms lines
        if tm = ∅ then acc else ainsert acc pr.1 tm)
    []

/-- One step of the filename-matching loop of `perform_probe`
(search_runner.rs lines 346-411) for one entry `(path, matched_terms)` of
`find_matching_filenames`: read the file (skip it on an I/O error, modelled
as `none`), skip it when it has zero lines, otherwise extend the existing or
fresh term map of the file with every line number `1..=line_count` for every
matched term, and insert the file into the hit map and the candidate set. -/
def addFilenameMatch (readLineCount : String → Option Nat)
    (st : FileTermMap × Finset String) (fm : String × Finset Nat) :
    FileTermMap × Finset String :=
  match readLineCount fm.1 with
  | none => st
  | some lineCount =>
    if lineCount = 0 then st
    else
      let base := (alookup st.1 fm.1).getD ∅
      let tm := base ∪ fm.2 ×ˢ Finset.Icc 1 lineCount
      (ainsert st.1 fm.1 tm, insert fm.1 st.2)

/-- The filename-matching loop of `perform_probe` (search_runner.rs lines
323-412), folded over the entries returned by `find_matching_filenames`. -/
def addFilenameMatches (readLineCount : String → Option Nat)
    (filenameMatches : List (String × Finset Nat))
    (ftm : FileTermMap) (allFiles : Finset String) : FileTermMap × Finset String :=
  filenameMatches.foldl (addFilenameMatch readLineCount) (ftm, allFiles)

/-- Modelled from the spec: the query AST of section 3 (the planner module
src/search/query.rs is not among the given sources). Nodes are
`Term(index, excluded?)`, `And`, `Or`. -/
inductive Ast where
  | term (idx : Nat) (excluded : Bool)
  | and (l r : Ast)
  | or (l r : Ast)
deriving DecidableEq, Repr

/-- Modelled from the spec: `evaluate(matchedTerms, termIndices,
honorExclusions)`. An excluded term short-circuits to false when present in
the matched set and exclusions are honored; a plain term is true when its
index is matched; `And` and `Or` are boolean. -/
def Ast.evaluate (a : Ast) (matched : Finset Nat) (honorExclusions : Bool) : Bool :=
  match a with
  | .term i excluded =>
    if excluded then !(honorExclusions && decide (i ∈ matched))
    else decide (i ∈ matched)
  | .and l r => l.evaluate matched honorExclusions && r.evaluate matched honorExclusions
  | .or l r => l.evaluate matched honorExclusions || r.evaluate matched honorExclusions

/-- Early AST filtering of `perform_probe` (search_runner.rs lines 418-458):
iterate the candidate files in hash-set order, keep a file in both the new hit
map and the new candidate set exactly when it has a term map whose key set
passes the evaluation, starting from an empty map and set. The evaluation
function stands for `plan.ast.evaluate(matched_terms, term_indices, true)`. -/
def earlyAstFilter (order : List String) (ftm : FileTermMap)
    (eval : Finset Nat → Bool) : FileTermMap × Finset String :=
  order.foldl
    (fun acc f =>
      match alookup ftm f with
      | some tm => if eval (keysOf tm) then (ainsert acc.1 f tm, insert f acc.2) else acc
      | none => acc)
    ([], ∅)

/-- One stderr or stdout line, or a pipeline stage marker, in execution
order. Used to state what the pipeline prints and in which order the stages
run. -/
inductive Ev where
  | scan
  | filenameMatch
  | earlyAst
  | earlyCache
  | processFiles
  | rank
  | finalCache
  | limits
  | cacheInsert
  | merge
  | out (s : String)
  | err (s : String)
deriving DecidableEq, Repr

/-- True when the trace contains a stderr line. -/
def hasErrEv (tr : List Ev) : Bool :=
  tr.any (fun e => match e with | .err _ => true | _ => false)

/-- Model of the session-id resolution at the top of `perform_probe`
(search_runner.rs lines 136-204). Arguments: the `session` option, the value
of the `PROBE_SESSION_ID` environment variable (`none` when unset), and the
outcome of `cache::generate_session_id()` (a collaborator not under the given
sources). Returns `(effective_session, session_was_generated)` together with
the stderr lines printed. -/
def resolveSession (session envSession : Option String)
    (gen : Except String (String × Bool)) : (Option String × Bool) × List Ev :=
  match session with
  | some s =>
    if s.isEmpty then
      match envSession with
      | some env =>
        if ¬ env.isEmpty then ((some env, false), [])
        else
          match gen with
          | .ok pr => ((some pr.1, true), [])
          | .error e => ((none, false), [.err ("Error generating session ID: " ++ e)])
      | none =>
        match gen with
        | .ok pr => ((some pr.1, true), [])
        | .error e => ((none, false), [.err ("Error generating session ID: " ++ e)])
    else ((some s, false), [])
  | none =>
    match envSession with
    | some env => if ¬ env.isEmpty then ((some env, false), []) else ((none, false), [])
    | none => ((none, false), [])

/-- A search result block, restricted to the fields the verified claims are
about: absolute file path and inclusive 1-based line range. -/
structure Block where
  file : String
  startLine : Nat
  endLine : Nat
deriving DecidableEq, Repr

/-- The limits that were applied, mirroring the `limits_applied` payload. -/
structure Limits where
  maxResults : Option Nat
  maxBytes : Option Nat
  maxTokens : Option Nat
deriving DecidableEq, Repr

/-- Mirror of `LimitedSearchResults`. -/
structure Limited where
  results : List Block
  skippedFiles : List String
  limitsApplied : Option Limits
  cachedBlocksSkipped : Option Nat
deriving DecidableEq, Repr

/-- The query plan as the pipeline observes it: the term-to-index table and
the evaluation `plan.ast.evaluate(matched_terms, term_indices, true)` as a
function of the matched term-index set. -/
structure QueryPlan where
  termIndices : List (String × Nat)
  evalAst : Finset Nat → Bool

/-- Abstract collaborators of `perform_probe` that live in modules not among
the given sources. `cqp` is `create_query_plan` with the exact flag already
applied (`none` for a parse error); `scanRes` is the outcome of
`search_with_structured_patterns` including pattern generation; `filenameRes`
is `file_list_cache::find_matching_filenames`; `readLineCount` is
`std::fs::read_to_string` followed by `lines().count()`; `process` is
`process_file_with_results` for one file (an error is logged and contributes
no results, hence a plain list); `rank` is `rank_search_results`;
`earlyCache`, `finalCache`, `addCache` are the cache module operations;
`applyLimits` is `apply_limits` with the caps; `mergeBlocks` is
`merge_ranked_blocks` with the threshold; `genSession` is
`generate_session_id`; `envSession` is the `PROBE_SESSION_ID` variable;
`iterOrder` is the iteration order of a `HashSet`, which Rust randomizes per
process, hence an oracle. Modelled from the spec: `filenameRes`, `process`
and `rank` take the query plan rather than the raw query strings, because
sections 4.5-4.7 define filename matching and ranking over the plan term set;
the source passes the raw `queries` list to them as well. -/
structure Collab where
  cqp : String → Option QueryPlan
  scanRes : QueryPlan → Except String FileTermMap
  filenameRes : QueryPlan → Except String (List (String × Finset Nat))
  readLineCount : String → Option Nat
  process : QueryPlan → String → TermMap → List Block
  rank : QueryPlan → List Block → List Block
  earlyCache : String → FileTermMap → Except String (FileTermMap × Nat)
  finalCache : String → List Block → Except String (List Block × Nat)
  addCache : String → List Block → Except String Unit
  applyLimits : List Block → Limited
  mergeBlocks : List Block → List Block
  genSession : Except String (String × Bool)
  envSession : Option String
  iterOrder : Finset String → List String

/-- The query-combination step of `perform_probe` (search_runner.rs lines
227-233): more than one query is joined with " AND " and parsed once; a
single query is parsed directly. -/
def parseQueries (cqp : String → Option QueryPlan) (queries : List String) :
    Option QueryPlan :=
  if queries.length > 1 then cqp (String.intercalate " AND " queries)
  else cqp (queries.headD "")

/-- Tail of `perform_probe` after early AST filtering on the non-files-only
path (search_runner.rs lines 532-867): early cache filter of matched lines,
candidate-set intersection with the filtered map keys, per-file result
processing in hash-set order, ranking, final cache filter of blocks, limits,
cache insertion of the limited results, optional merging followed by cache
insertion of the merged results, and the session-id console line. Every cache
operation that fails is reported on stderr and skipped; the pipeline
continues. -/
def searchPipelineTail (c : Collab) (noMerge : Bool) (effSession : Option String)
    (sessionGenerated : Bool) (plan : QueryPlan) (ftm2 : FileTermMap)
    (allFiles2 : Finset String) : Limited × List Ev :=
  let ecStep : FileTermMap × Nat × List Ev :=
    match effSession with
    | some sid =>
      match c.earlyCache sid ftm2 with
      | .ok pr => (pr.1, pr.2, [Ev.earlyCache])
      | .error e => (ftm2, 0, [Ev.earlyCache, Ev.err ("Error applying early cache: " ++ e)])
    | none => (ftm2, 0, [])
  let ftm3 := ecStep.1
  let earlySkipped := ecStep.2.1
  let allFiles3 : Finset String :=
    match effSession with
    | some _ => allFiles2.filter (fun f => (alookup ftm3 f).isSome)
    | none => allFiles2
  let finalResults : List Block :=
    (c.iterOrder allFiles3).flatMap (fun f =>
      match alookup ftm3 f with
      | some tm => c.process plan f tm
      | none => [])
  let ranked := c.rank plan finalResults
  let fcStep : List Block × Nat × List Ev :=
    match effSession with
    | some sid =>
      match c.finalCache sid ranked with
      | .ok pr => (pr.1, earlySkipped + pr.2, [Ev.finalCache])
      | .error e => (ranked, earlySkipped, [Ev.finalCache, Ev.err ("Error applying cache: " ++ e)])
    | none => (ranked, earlySkipped, [])
  let filteredResults := fcStep.1
  let skippedCount := fcStep.2.1
  let limited0 := c.applyLimits filteredResults
  let limited : Limited :=
    { limited0 with cachedBlocksSkipped := if skippedCount > 0 then some skippedCount else none }
  let ins1 : List Ev :=
    match effSession with
    | some sid =>
      match c.addCache sid limited.results with
      | .ok _ => [Ev.cacheInsert]
      | .error e => [Ev.cacheInsert, Ev.err ("Error adding results to cache: " ++ e)]
    | none => []
  let mergeStep : Limited × List Ev :=
    if ¬ limited.results.isEmpty ∧ ¬ noMerge then
      let merged := c.mergeBlocks limited.results
      let ins2 : List Ev :=
        match effSession with
        | some sid =>
          match c.addCache sid merged with
          | .ok _ => [Ev.cacheInsert]
          | .error e => [Ev.cacheInsert, Ev.err ("Error adding merged results to cache: " ++ e)]
        | none => []
      ({ results := merged, skippedFiles := limited.skippedFiles,
         limitsApplied := limited.limitsApplied,
         cachedBlocksSkipped := limited.cachedBlocksSkipped }, [Ev.merge] ++ ins2)
    else (limited, [])
  let sess : List Ev :=
    match effSession with
    | some sid =>
      if sessionGenerated then
        [Ev.out ("Session ID: " ++ sid ++ " (generated - used it in future sessions for caching)")]
      else [Ev.out ("Session ID: " ++ sid)]
    | none => []
  (mergeStep.1,
   ecStep.2.2 ++ [Ev.processFiles, Ev.rank] ++ fcStep.2.2 ++ [Ev.limits] ++ ins1
     ++ mergeStep.2 ++ sess)

/-- Model of `perform_probe` (search_runner.rs lines 110-868): session
resolution, query parsing (a parse failure prints one stdout line and returns
an empty result successfully), scanning, optional filename matching, early
AST filtering, the files-only early return, and the pipeline tail. The
`Except` errors are the operator `?` propagations of the scan and
filename-matching collaborators. -/
def perform_probe (c : Collab) (queries : List String) (session : Option String)
    (filesOnly includeFilenames noMerge : Bool) : Except String (Limited × List Ev) :=
  let sres := resolveSession session c.envSession c.genSession
  let effSession := sres.1.1
  let sessionGenerated := sres.1.2
  match parseQueries c.cqp queries with
  | none =>
    .ok (⟨[], [], none, none⟩, sres.2 ++ [Ev.out "Failed to parse query as AST expression"])
  | some plan =>
    match c.scanRes plan with
    | .error e => .error e
    | .ok ftm0 =>
      let allFiles0 := ftmKeys ftm0
      match (if includeFilenames then
               match c.filenameRes plan with
               | .error e => Except.error e
               | .ok fms =>
                 Except.ok (addFilenameMatches c.readLineCount fms ftm0 allFiles0,
                   [Ev.filenameMatch])
             else Except.ok ((ftm0, allFiles0), ([] : List Ev))) with
      | .error e => .error e
      | .ok fmStep =>
        let ftm1 := fmStep.1.1
        let allFiles1 := fmStep.1.2
        let trFm := fmStep.2
        let ea := earlyAstFilter (c.iterOrder allFiles1) ftm1 (fun ts => plan.evalAst ts)
        let ftm2 := ea.1
        let allFiles2 := ea.2
        if filesOnly then
          let res := (c.iterOrder allFiles2).map
            (fun f => ({ file := f, startLine := 1, endLine := 1 } : Block))
          let limited := c.applyLimits res
          .ok ({ limited with cachedBlocksSkipped := none },
               sres.2 ++ [Ev.scan] ++ trFm ++ [Ev.earlyAst, Ev.limits])
        else
          let tail := searchPipelineTail c noMerge effSession sessionGenerated plan ftm2 allFiles2
          .ok (tail.1, sres.2 ++ [Ev.scan] ++ trFm ++ [Ev.earlyAst] ++ tail.2)

/-- Modelled from the spec: the sort key of `rank_search_results`
(src/search/result_ranking.rs is not among the given sources). Section 4.7
assigns ranks by descending final score with ties broken by file path then
start line; the end line is appended so that the key is total on the block
data carried here. -/
def rankKey (score : Block → Int) (b : Block) :
    Lex (Int × Lex (String × Lex (Nat × Nat))) :=
  toLex (-score b, toLex (b.file, toLex (b.startLine, b.endLine)))

/-- Boolean comparison induced by `rankKey`. -/
def rankLE (score : Block → Int) (a b : Block) : Bool :=
  decide (rankKey score a ≤ rankKey score b)

/-- Modelled from the spec: `rank_search_results` as a sort of the candidate
blocks by the deterministic total key. -/
def rankBlocks (score : Block → Int) (l : List Block) : List Block :=
  l.mergeSort (rankLE score)

/-- A concrete collaborator assignment used to evaluate the pipeline at
concrete inputs: one file "a.rs" matching term 0, a query accepting any set
containing term index 0, identity ranking and merging, cap-free limits, and
successful cache operations. -/
def collabBase : Collab where
  cqp := fun _ => some ⟨[("q", 0)], fun ts => decide (0 ∈ ts)⟩
  scanRes := fun _ => .ok [("a.rs", {(0, 1)})]
  filenameRes := fun _ => .ok []
  readLineCount := fun _ => some 1
  process := fun _ f _ => [⟨f, 1, 2⟩]
  rank := fun _ l => l
  earlyCache := fun _ m => .ok (m, 0)
  finalCache := fun _ l => .ok (l, 0)
  addCache := fun _ _ => .ok ()
  applyLimits := fun l => ⟨l, [], none, none⟩
  mergeBlocks := fun l => l
  genSession := .ok ("gen", true)
  envSession := none
  iterOrder := fun s => if "a.rs" ∈ s then ["a.rs"] else []

/-- A concrete collaborator assignment with two matching files and the
spec-modelled ranker, used to evaluate determinism at concrete inputs. -/
def collabTwo : Collab := { collabBase with
  scanRes := fun _ => .ok [("a.rs", {(0, 1)}), ("b.rs", {(0, 1)})]
  rank := fun _ l => rankBlocks (fun _ => 0) l
  iterOrder := fun s => s.sort (· ≤ ·) }

/-! Scanner lemmas (claims C1 and C8). -/

theorem mem_foldl_insert_of_mem {l : List Nat} {k : Nat} {m : TermMap} {p : Nat × Nat}
    (h : p ∈ m) : p ∈ l.foldl (fun a t => insert (t, k) a) m := by
  induction l generalizing m with
  | nil => exact h
  | cons t ts ih => exact ih (Finset.mem_insert_of_mem h)

theorem mem_foldl_insert_self {l : List Nat} {k : Nat} {m : TermMap} {t : Nat}
    (h : t ∈ l) : (t, k) ∈ l.foldl (fun a u => insert (u, k) a) m := by
  induction l generalizing m with
  | nil => cases h
  | cons u us ih =>
    simp only [List.foldl_cons]
    rcases List.mem_cons.mp h with h | h
    · subst h
      exact mem_foldl_insert_of_mem (Finset.mem_insert_self _ _)
    · exact ih h

theorem mem_foldl_insert_elim {l : List Nat} {k : Nat} {m : TermMap} {p : Nat × Nat}
    (h : p ∈ l.foldl (fun a t => insert (t, k) a) m) : p ∈ m ∨ p.2 = k := by
  induction l generalizing m with
  | nil => exact Or.inl h
  | cons t ts ih =>
    rcases ih h with h | h
    · rcases Finset.mem_insert.mp h with h | h
      · exact Or.inr (by rw [h])
      · exact Or.inl h
    · exact Or.inr h

theorem mem_foldl_record_of_mem {l : List (Nat × List Nat)} {cap : List Nat} {k : Nat}
    {m : TermMap} {p : Nat × Nat} (h : p ∈ m) :
    p ∈ l.foldl
      (fun acc pr => if pr.1 + 1 ∈ cap then pr.2.foldl (fun a t => insert (t, k) a) acc else acc)
      m := by
  induction l generalizing m with
  | nil => exact h
  | cons pr rest ih =>
    simp only [List.foldl_cons]
    by_cases hc : pr.1 + 1 ∈ cap
    · simp only [hc, if_pos]
      exact ih (mem_foldl_insert_of_mem h)
    · simp only [hc, if_neg, not_false_iff]
      exact ih h

theorem mem_recordMatch_of_mem {ptt : List (List Nat)} {n : Nat} {cap : List Nat}
    {m : TermMap} {p : Nat × Nat} (h : p ∈ m) : p ∈ recordMatch ptt n cap m := by
  unfold recordMatch
  exact mem_foldl_record_of_mem h

theorem mem_recordMatch_self {ptt : List (List Nat)} {n : Nat} {cap : List Nat}
    {m : TermMap} {g t : Nat} {terms : List Nat}
    (hg : ptt[g]? = some terms) (hcap : g + 1 ∈ cap) (ht : t ∈ terms) :
    (t, n + 1) ∈ recordMatch ptt n cap m := by
  unfold recordMatch
  have hmem : (g, terms) ∈ ptt.enum := List.mem_enum_iff_getElem?.mpr hg
  generalize hl : ptt.enum = l at hmem
  clear hl hg
  induction l generalizing m with
  | nil => cases hmem
  | cons pr rest ih =>
    simp only [List.foldl_cons]
    rcases List.mem_cons.mp hmem with h | h
    · subst h
      simp only [hcap, if_pos]
      exact mem_foldl_record_of_mem (mem_foldl_insert_self ht)
    · exact ih h

theorem mem_recordMatch_elim {ptt : List (List Nat)} {n : Nat} {cap : List Nat}
    {m : TermMap} {p : Nat × Nat} (h : p ∈ recordMatch ptt n cap m) :
    p ∈ m ∨ p.2 = n + 1 := by
  unfold recordMatch at h
  generalize ptt.enum = l at h
  induction l generalizing m with
  | nil => exact Or.inl h
  | cons pr rest ih =>
    simp only [List.foldl_cons] at h
    by_cases hc : pr.1 + 1 ∈ cap
    · simp only [hc, if_pos] at h
      rcases ih h with h | h
      · exact mem_foldl_insert_elim h
      · exact Or.inr h
    · simp only [hc, if_neg, not_false_iff] at h
      exact ih h

theorem mem_foldl_caps_of_mem {ptt : List (List Nat)} {n : Nat} {cs : List (List Nat)}
    {m : TermMap} {p : Nat × Nat} (h : p ∈ m) :
    p ∈ cs.foldl (fun acc c => recordMatch ptt n c acc) m := by
  induction cs generalizing m with
  | nil => exact h
  | cons c rest ih =>
    simp only [List.foldl_cons]
    exact ih (mem_recordMatch_of_mem h)

theorem mem_scanLineStep_of_mem {ptt : List (List Nat)} {n : Nat} {line : ScanLine}
    {m : TermMap} {p : Nat × Nat} (h : p ∈ m) : p ∈ scanLineStep ptt n line m := by
  unfold scanLineStep
  split
  · exact h
  · exact mem_foldl_caps_of_mem h

theorem mem_scanLineStep_self {ptt : List (List Nat)} {n : Nat} {line : ScanLine}
    {m : TermMap} {cap : List Nat} {g t : Nat} {terms : List Nat}
    (hlen : ¬ line.len > 2000) (hcapmem : cap ∈ line.caps)
    (hg : ptt[g]? = some terms) (hcap : g + 1 ∈ cap) (ht : t ∈ terms) :
    (t, n + 1) ∈ scanLineStep ptt n line m := by
  unfold scanLineStep
  simp only [hlen, if_neg, not_false_iff]
  generalize hl : line.caps = cs at hcapmem
  clear hl
  induction cs generalizing m with
  | nil => cases hcapmem
  | cons c rest ih =>
    simp only [List.foldl_cons]
    rcases List.mem_cons.mp hcapmem with h | h
    · subst h
      exact mem_foldl_caps_of_mem (mem_recordMatch_self hg hcap ht)
    · exact ih h

theorem mem_scanLineStep_elim {ptt : List (List Nat)} {n : Nat} {line : ScanLine}
    {m : TermMap} {p : Nat × Nat} (h : p ∈ scanLineStep ptt n line m) :
    p ∈ m ∨ (line.len ≤ 2000 ∧ p.2 = n + 1) := by
  unfold scanLineStep at h
  by_cases hl : line.len > 2000
  · simp only [hl, if_pos] at h
    exact Or.inl h
  · simp only [hl, if_neg, not_false_iff] at h
    have hle : line.len ≤ 2000 := Nat.le_of_not_lt hl
    generalize line.caps = cs at h
    induction cs generalizing m with
    | nil => exact Or.inl h
    | cons c rest ih =>
      simp only [List.foldl_cons] at h
      rcases ih h with h2 | h2
      · rcases mem_recordMatch_elim h2 with h3 | h3
        · exact Or.inl h3
        · exact Or.inr ⟨hle, h3⟩
      · exact Or.inr h2

theorem mem_scan_file_of_mem {ptt : List (List Nat)} {pairs : List (Nat × ScanLine)}
    {m : TermMap} {p : Nat × Nat} (h : p ∈ m) :
    p ∈ pairs.foldl (fun acc pr => scanLineStep ptt pr.1 pr.2 acc) m := by
  induction pairs generalizing m with
  | nil => exact h
  | cons pr rest ih =>
    simp only [List.foldl_cons]
    exact ih (mem_scanLineStep_of_mem h)

theorem mem_search_file_self {ptt : List (List Nat)} {lines : List ScanLine}
    {i : Nat} {line : ScanLine} {cap : List Nat} {g t : Nat} {terms : List Nat}
    (hline : lines[i]? = some line) (hlen : ¬ line.len > 2000) (hcapmem : cap ∈ line.caps)
    (hg : ptt[g]? = some terms) (hcap : g + 1 ∈ cap) (ht : t ∈ terms) :
    (t, i + 1) ∈ search_file_with_combined_pattern ptt lines := by
  unfold search_file_with_combined_pattern
  have hmem : (i, line) ∈ lines.enum := List.mem_enum_iff_getElem?.mpr hline
  have main : ∀ (l : List (Nat × ScanLine)) (m : TermMap), (i, line) ∈ l →
      (t, i + 1) ∈ l.foldl (fun acc pr => scanLineStep ptt pr.1 pr.2 acc) m := by
    intro l
    induction l with
    | nil => intro m hm; cases hm
    | cons pr rest ih =>
      intro m hm
      simp only [List.foldl_cons]
      rcases List.mem_cons.mp hm with h | h
      · rw [← h]
        exact mem_scan_file_of_mem (mem_scanLineStep_self hlen hcapmem hg hcap ht)
      · exact ih _ h
  exact main _ _ hmem

theorem mem_search_file_elim {ptt : List (List Nat)} {lines : List ScanLine}
    {p : Nat × Nat} (h : p ∈ search_file_with_combined_pattern ptt lines) :
    ∃ i line, lines[i]? = some line ∧ line.len ≤ 2000 ∧ p.2 = i + 1 := by
  unfold search_file_with_combined_pattern at h
  have : ∀ (l : List (Nat × ScanLine)) (m : TermMap),
      p ∈ l.foldl (fun acc pr => scanLineStep ptt pr.1 pr.2 acc) m →
      p ∈ m ∨ ∃ pr ∈ l, pr.2.len ≤ 2000 ∧ p.2 = pr.1 + 1 := by
    intro l
    induction l with
    | nil => intro m hm; exact Or.inl hm
    | cons pr rest ih =>
      intro m hm
      simp only [List.foldl_cons] at hm
      rcases ih _ hm with h2 | h2
      · rcases mem_scanLineStep_elim h2 with h3 | h3
        · exact Or.inl h3
        · exact Or.inr ⟨pr, List.mem_cons_self _ _, h3⟩
      · rcases h2 with ⟨q, hq, hq2⟩
        exact Or.inr ⟨q, List.mem_cons_of_mem _ hq, hq2⟩
  rcases this _ _ h with h2 | h2
  · cases h2
  · rcases h2 with ⟨pr, hpr, hlen, hsnd⟩
    exact ⟨pr.1, pr.2, List.mem_enum_iff_getElem?.mp hpr, hlen, hsnd⟩

theorem mem_ainsert_elim {m : FileTermMap} {k : String} {v : TermMap}
    {q : String × TermMap} (h : q ∈ ainsert m k v) : q = (k, v) ∨ q ∈ m := by
  induction m with
  | nil => simpa [ainsert] using h
  | cons hd tl ih =>
    unfold ainsert at h
    by_cases hk : hd.1 = k
    · simp only [hk, if_pos] at h
      rcases List.mem_cons.mp h with h | h
      · exact Or.inl h
      · exact Or.inr (List.mem_cons_of_mem _ h)
    · simp only [hk, if_neg, not_false_iff] at h
      rcases List.mem_cons.mp h with h | h
      · exact Or.inr (by rw [h]; exact List.mem_cons_self _ _)
      · rcases ih h with h2 | h2
        · exact Or.inl h2
        · exact Or.inr (List.mem_cons_of_mem _ h2)

theorem search_with_structured_patterns_entries_nonempty
    {ptt : List (List Nat)} {files : List (String × Option (List ScanLine))}
    {entry : String × TermMap} (h : entry ∈ search_with_structured_patterns ptt files) :
    entry.2 ≠ ∅ := by
  unfold search_with_structured_patterns at h
  have : ∀ (fs : List (String × Option (List ScanLine))) (acc : FileTermMap),
      (∀ q ∈ acc, q.2 ≠ (∅ : TermMap)) →
      ∀ q ∈ fs.foldl
        (fun acc pr =>
          match pr.2 with
          | none => acc
          | some lines =>
            let tm := search_file_with_combined_pattern ptt lines
            if tm = ∅ then acc else ainsert acc pr.1 tm)
        acc, q.2 ≠ (∅ : TermMap) := by
    intro fs
    induction fs with
    | nil => intro acc hacc q hq; exact hacc q hq
    | cons pr rest ih =>
      intro acc hacc q hq
      simp only [List.foldl_cons] at hq
      refine ih _ ?_ q hq
      intro r hr
      match hp : pr.2 with
      | none =>
        rw [hp] at hr
        exact hacc r hr
      | some lines =>
        rw [hp] at hr
        simp only at hr
        split at hr
        · exact hacc r hr
        · rcases mem_ainsert_elim hr with h2 | h2
          · rw [h2]
            simpa using by assumption
          · exact hacc r h2
  exact this files [] (by intro q hq; cases hq) entry h

/-- C1: for every scanned line that is not skipped and every match of the
combined regex on it, the scanner records the 1-based line number for the term
indices of every capture group that participated in the match, not only the
first; in particular for two distinct participating alternatives both sets of
term indices receive entries. -/
theorem C1_scanner_records_all_participating_groups
    (ptt : List (List Nat)) (lines : List ScanLine) (i : Nat) (line : ScanLine)
    (cap : List Nat) (g₁ g₂ t₁ t₂ : Nat) (terms₁ terms₂ : List Nat)
    (hline : lines[i]? = some line) (hlen : line.len ≤ 2000)
    (hcapmem : cap ∈ line.caps)
    (hg₁ : ptt[g₁]? = some terms₁) (hpart₁ : g₁ + 1 ∈ cap) (ht₁ : t₁ ∈ terms₁)
    (hg₂ : ptt[g₂]? = some terms₂) (hpart₂ : g₂ + 1 ∈ cap) (ht₂ : t₂ ∈ terms₂) :
    (t₁, i + 1) ∈ search_file_with_combined_pattern ptt lines ∧
    (t₂, i + 1) ∈ search_file_with_combined_pattern ptt lines := by
  have hl : ¬ line.len > 2000 := Nat.not_lt.mpr hlen
  exact ⟨mem_search_file_self hline hl hcapmem hg₁ hpart₁ ht₁,
         mem_search_file_self hline hl hcapmem hg₂ hpart₂ ht₂⟩

/-- Witness for C1 at a concrete input: a one-line file where groups 1 and 2
both participate in a single match; both patterns, with term indices 7 and 9,
are recorded for line 1. -/
theorem C1_scanner_records_all_participating_groups_witness :
    (7, 1) ∈ search_file_with_combined_pattern [[7], [9]] [⟨10, [[1, 2]]⟩] ∧
    (9, 1) ∈ search_file_with_combined_pattern [[7], [9]] [⟨10, [[1, 2]]⟩] :=
  C1_scanner_records_all_participating_groups [[7], [9]] [⟨10, [[1, 2]]⟩] 0 ⟨10, [[1, 2]]⟩
    [1, 2] 0 1 7 9 [7] [9] rfl (by decide) (by decide)
    rfl (by decide) (by decide) rfl (by decide) (by decide)

/-- C8: every pair recorded by the scanner for a file comes from a line of the
file whose length does not exceed 2000 bytes, under the 1-based numbering
i + 1 of the 0-based line index i (so lines longer than 2000 bytes contribute
no matches and all recorded line numbers are 1-based); and every per-file
entry of the file-level search result has a nonempty term map (empty per-file
maps are dropped). -/
theorem C8_long_lines_skipped_one_based_empty_dropped
    (ptt : List (List Nat)) (lines : List ScanLine)
    (files : List (String × Option (List ScanLine))) :
    (∀ p ∈ search_file_with_combined_pattern ptt lines,
      ∃ i line, lines[i]? = some line ∧ line.len ≤ 2000 ∧ p.2 = i + 1) ∧
    (∀ entry ∈ search_with_structured_patterns ptt files, entry.2 ≠ ∅) :=
  ⟨fun _ hp => mem_search_file_elim hp,
   fun _ he => search_with_structured_patterns_entries_nonempty he⟩

/-- Witness for C8 at a concrete input: a two-line file whose second line has
3000 bytes; the only recorded pair (3, 1) comes from line 1, and the file
entry in the file-level result is nonempty. -/
theorem C8_long_lines_skipped_one_based_empty_dropped_witness :
    (∃ i line, ([⟨5, [[1]]⟩, ⟨3000, [[1]]⟩] : List ScanLine)[i]? = some line ∧
      line.len ≤ 2000 ∧ (((3 : Nat), (1 : Nat)) : Nat × Nat).2 = i + 1) ∧
    (("a", ({((3 : Nat), (1 : Nat))} : TermMap)) : String × TermMap).2 ≠ ∅ :=
  ⟨(C8_long_lines_skipped_one_based_empty_dropped [[3]] [⟨5, [[1]]⟩, ⟨3000, [[1]]⟩]
      [("a", some [⟨5, [[1]]⟩, ⟨3000, [[1]]⟩])]).1 (3, 1) (by decide),
   (C8_long_lines_skipped_one_based_empty_dropped [[3]] [⟨5, [[1]]⟩, ⟨3000, [[1]]⟩]
      [("a", some [⟨5, [[1]]⟩, ⟨3000, [[1]]⟩])]).2 ("a", {(3, 1)}) (by decide)⟩

/-- C4 counterexample: with `PROBE_SESSION_ID` set to the nonempty value
"abc", supplying the session option as the empty string does not generate a
session id (the environment value is used and the generated flag is false),
and an absent session option still enables caching with the environment id;
both contradict the claim as stated. -/
theorem C4_session_resolution_counterexample :
    (resolveSession (some "") (some "abc") (.ok ("gen", true))).1 = (some "abc", false) ∧
    (resolveSession none (some "abc") (.ok ("gen", true))).1 = (some "abc", false) := by
  constructor <;> rfl

/-- C4 amended: the session option empty means generate only when
`PROBE_SESSION_ID` is unset or empty, otherwise the environment id is used
without generation; a nonempty session option is used as given; an absent
session option uses the environment id when it is set and nonempty and
disables caching otherwise; a generation failure disables caching with a
stderr line. -/
theorem C4_session_resolution_amended :
    (∀ pr : String × Bool, resolveSession (some "") none (.ok pr) = ((some pr.1, true), [])) ∧
    (∀ pr : String × Bool, resolveSession (some "") (some "") (.ok pr) = ((some pr.1, true), [])) ∧
    (∀ (env : String) (gen : Except String (String × Bool)), ¬ env.isEmpty →
      resolveSession (some "") (some env) gen = ((some env, false), [])) ∧
    (∀ (s : String) (envSession : Option String) (gen : Except String (String × Bool)),
      ¬ s.isEmpty → resolveSession (some s) envSession gen = ((some s, false), [])) ∧
    (∀ gen : Except String (String × Bool),
      resolveSession none none gen = ((none, false), [])) ∧
    (∀ (env : String) (gen : Except String (String × Bool)), ¬ env.isEmpty →
      resolveSession none (some env) gen = ((some env, false), [])) ∧
    (∀ e : String, resolveSession (some "") none (.error e) =
      ((none, false), [.err ("Error generating session ID: " ++ e)])) := by
  refine ⟨fun pr => rfl, fun pr => rfl, ?_, ?_, fun gen => ?_, ?_, fun e => rfl⟩
  · intro env gen henv
    dsimp only [resolveSession]
    rw [if_pos henv]
    rfl
  · intro s envSession gen hs
    dsimp only [resolveSession]
    rw [if_neg hs]
  · rfl
  · intro env gen henv
    dsimp only [resolveSession]
    rw [if_pos henv]

/-- Witness for C4 amended at concrete inputs: the empty session option with
no environment id generates, and a nonempty option is used as given. -/
theorem C4_session_resolution_amended_witness :
    resolveSession (some "") none (.ok ("gen", true)) = ((some "gen", true), []) ∧
    resolveSession (some "sid") (some "abc") (.ok ("gen", true)) = ((some "sid", false), []) ∧
    resolveSession none (some "abc") (.ok ("gen", true)) = ((some "abc", false), []) :=
  ⟨C4_session_resolution_amended.1 ("gen", true),
   C4_session_resolution_amended.2.2.2.1 "sid" (some "abc") (.ok ("gen", true)) (by decide),
   C4_session_resolution_amended.2.2.2.2.2.1 "abc" (.ok ("gen", true)) (by decide)⟩

/-! Association-list and filename-matching lemmas (claim C2). -/

theorem alookup_ainsert_self (m : FileTermMap) (k : String) (v : TermMap) :
    alookup (ainsert m k v) k = some v := by
  induction m with
  | nil => simp [ainsert, alookup]
  | cons hd tl ih =>
    unfold ainsert
    by_cases hk : hd.1 = k
    · simp only [hk, if_pos]
      unfold alookup
      rw [if_pos rfl]
    · simp only [hk, if_neg, not_false_iff]
      unfold alookup
      rw [if_neg hk]
      exact ih

theorem alookup_ainsert_other (m : FileTermMap) {k j : String} (v : TermMap)
    (h : k ≠ j) : alookup (ainsert m k v) j = alookup m j := by
  induction m with
  | nil => simp [ainsert, alookup, h]
  | cons hd tl ih =>
    unfold ainsert
    by_cases hk : hd.1 = k
    · simp only [hk, if_pos]
      unfold alookup
      rw [if_neg h, if_neg (hk ▸ h)]
    · simp only [hk, if_neg, not_false_iff]
      unfold alookup
      by_cases hj : hd.1 = j
      · rw [if_pos hj, if_pos hj]
      · rw [if_neg hj, if_neg hj]
        exact ih

theorem addFilenameMatch_lookup_other {readLC : String → Option Nat}
    {st : FileTermMap × Finset String} {e : String × Finset Nat} {f : String}
    (h : e.1 ≠ f) : alookup (addFilenameMatch readLC st e).1 f = alookup st.1 f := by
  unfold addFilenameMatch
  match hr : readLC e.1 with
  | none => rfl
  | some lineCount =>
    by_cases h0 : lineCount = 0
    · simp [h0]
    · simp only [h0, if_neg, not_false_iff]
      exact alookup_ainsert_other _ _ h

theorem addFilenameMatch_mem_mono {readLC : String → Option Nat}
    {st : FileTermMap × Finset String} {e : String × Finset Nat} {f : String}
    (h : f ∈ st.2) : f ∈ (addFilenameMatch readLC st e).2 := by
  unfold addFilenameMatch
  match hr : readLC e.1 with
  | none => exact h
  | some lineCount =>
    by_cases h0 : lineCount = 0
    · simp only [h0, if_pos]
      exact h
    · simp only [h0, if_neg, not_false_iff]
      exact Finset.mem_insert_of_mem h

theorem foldl_addFilenameMatch_lookup_skip {readLC : String → Option Nat}
    {l : List (String × Finset Nat)} {st : FileTermMap × Finset String} {f : String}
    (h : ∀ e ∈ l, e.1 ≠ f) :
    alookup (l.foldl (addFilenameMatch readLC) st).1 f = alookup st.1 f := by
  induction l generalizing st with
  | nil => rfl
  | cons e rest ih =>
    simp only [List.foldl_cons]
    rw [ih (fun x hx => h x (List.mem_cons_of_mem _ hx))]
    exact addFilenameMatch_lookup_other (h e (List.mem_cons_self _ _))

theorem foldl_addFilenameMatch_mem_mono {readLC : String → Option Nat}
    {l : List (String × Finset Nat)} {st : FileTermMap × Finset String} {f : String}
    (h : f ∈ st.2) : f ∈ (l.foldl (addFilenameMatch readLC) st).2 := by
  induction l generalizing st with
  | nil => exact h
  | cons e rest ih =>
    simp only [List.foldl_cons]
    exact ih (addFilenameMatch_mem_mono h)

theorem addFilenameMatches_lookup {readLC : String → Option Nat}
    {l : List (String × Finset Nat)} {st : FileTermMap × Finset String}
    {f : String} {ts : Finset Nat} {n : Nat}
    (hnd : (l.map Prod.fst).Nodup) (hmem : (f, ts) ∈ l)
    (hread : readLC f = some n) (hn : n ≠ 0) :
    alookup (l.foldl (addFilenameMatch readLC) st).1 f =
      some ((alookup st.1 f).getD ∅ ∪ ts ×ˢ Finset.Icc 1 n) ∧
    f ∈ (l.foldl (addFilenameMatch readLC) st).2 := by
  have main : ∀ l2 : List (String × Finset Nat), (l2.map Prod.fst).Nodup → (f, ts) ∈ l2 →
      ∀ st2 : FileTermMap × Finset String,
      alookup (l2.foldl (addFilenameMatch readLC) st2).1 f =
        some ((alookup st2.1 f).getD ∅ ∪ ts ×ˢ Finset.Icc 1 n) ∧
      f ∈ (l2.foldl (addFilenameMatch readLC) st2).2 := by
    intro l2
    induction l2 with
    | nil =>
      intro _ hmem2 _
      cases hmem2
    | cons e rest ih =>
      intro hnd2 hmem2 st2
      simp only [List.map_cons, List.nodup_cons] at hnd2
      simp only [List.foldl_cons]
      rcases List.mem_cons.mp hmem2 with h | h
      · have he1 : e.1 = f := by rw [← h]
        have hrest : ∀ x ∈ rest, x.1 ≠ f := by
          intro x hx hxf
          exact hnd2.1 (he1 ▸ hxf ▸ List.mem_map_of_mem Prod.fst hx)
        have hstep : addFilenameMatch readLC st2 e =
            (ainsert st2.1 f ((alookup st2.1 f).getD ∅ ∪ ts ×ˢ Finset.Icc 1 n),
             insert f st2.2) := by
          rw [← h]
          unfold addFilenameMatch
          simp only
          rw [hread]
          simp only [hn, if_neg, not_false_iff]
        rw [hstep]
        constructor
        · rw [foldl_addFilenameMatch_lookup_skip hrest]
          exact alookup_ainsert_self _ _ _
        · exact foldl_addFilenameMatch_mem_mono (Finset.mem_insert_self _ _)
      · have he1 : e.1 ≠ f := by
          intro hef
          exact hnd2.1 (hef ▸ List.mem_map_of_mem Prod.fst h)
        have hrec := ih hnd2.2 h (addFilenameMatch readLC st2 e)
        rwa [addFilenameMatch_lookup_other he1] at hrec
  exact main l hnd hmem st

/-- C2: with filename matching enabled, every entry of
`find_matching_filenames` whose file is readable and nonempty ends up in the
Hit Map with a term map equal to its previous entries united with every line
1 through the line count for every filename-matched term, and the file is in
the candidate set; moreover the filename-matching stage of `perform_probe`
runs before the early AST filtering stage. -/
theorem C2_filename_matches_added_before_ast_filter :
    (∀ (readLC : String → Option Nat) (l : List (String × Finset Nat))
      (ftm : FileTermMap) (allFiles : Finset String) (f : String) (ts : Finset Nat) (n : Nat),
      (l.map Prod.fst).Nodup → (f, ts) ∈ l → readLC f = some n → n ≠ 0 →
      alookup (addFilenameMatches readLC l ftm allFiles).1 f =
        some ((alookup ftm f).getD ∅ ∪ ts ×ˢ Finset.Icc 1 n) ∧
      f ∈ (addFilenameMatches readLC l ftm allFiles).2) ∧
    (∀ (c : Collab) (queries : List String) (session : Option String)
      (filesOnly noMerge : Bool) (plan : QueryPlan) (ftm0 : FileTermMap)
      (fms : List (String × Finset Nat)) (lim : Limited) (tr : List Ev),
      parseQueries c.cqp queries = some plan →
      c.scanRes plan = .ok ftm0 →
      c.filenameRes plan = .ok fms →
      perform_probe c queries session filesOnly true noMerge = .ok (lim, tr) →
      ∃ rest, tr = (resolveSession session c.envSession c.genSession).2 ++
        [Ev.scan, Ev.filenameMatch, Ev.earlyAst] ++ rest) := by
  constructor
  · intro readLC l ftm allFiles f ts n hnd hmem hread hn
    exact addFilenameMatches_lookup hnd hmem hread hn
  · intro c queries session filesOnly noMerge plan ftm0 fms lim tr hp hs hf hrun
    unfold perform_probe at hrun
    rw [hp] at hrun
    dsimp only at hrun
    rw [hs] at hrun
    dsimp only at hrun
    rw [hf] at hrun
    dsimp only at hrun
    cases filesOnly with
    | true =>
      simp only [if_pos] at hrun
      have := (Except.ok.injEq _ _).mp hrun
      have htr := congrArg Prod.snd this
      simp only at htr
      exact ⟨[Ev.limits], by rw [← htr]; simp⟩
    | false =>
      simp only [Bool.false_eq_true, if_neg, not_false_iff] at hrun
      have := (Except.ok.injEq _ _).mp hrun
      have htr := congrArg Prod.snd this
      simp only at htr
      refine ⟨(searchPipelineTail c noMerge
        (resolveSession session c.envSession c.genSession).1.1
        (resolveSession session c.envSession c.genSession).1.2 plan
        (earlyAstFilter (c.iterOrder (addFilenameMatches c.readLineCount fms ftm0 (ftmKeys ftm0)).2)
          (addFilenameMatches c.readLineCount fms ftm0 (ftmKeys ftm0)).1
          (fun ts => plan.evalAst ts)).1
        (earlyAstFilter (c.iterOrder (addFilenameMatches c.readLineCount fms ftm0 (ftmKeys ftm0)).2)
          (addFilenameMatches c.readLineCount fms ftm0 (ftmKeys ftm0)).1
          (fun ts => plan.evalAst ts)).2).2, ?_⟩
      rw [← htr]
      simp

/-- Witness for C2 at a concrete input: one filename match on a two-line file
named "conf.rs" with term index 4 and an existing content hit (4, 9) in the
map, and a concrete pipeline whose trace shows filename matching directly
before early AST filtering. -/
theorem C2_filename_matches_added_before_ast_filter_witness :
    ((alookup (addFilenameMatches (fun _ => some 2) [("conf.rs", {4})]
        [("conf.rs", {(4, 9)})] {"conf.rs"}).1 "conf.rs" =
      some ((alookup [("conf.rs", {(4, 9)})] "conf.rs").getD ∅ ∪
        ({4} : Finset Nat) ×ˢ Finset.Icc 1 2) ∧
      "conf.rs" ∈ (addFilenameMatches (fun _ => some 2) [("conf.rs", {4})]
        [("conf.rs", {(4, 9)})] {"conf.rs"}).2)) ∧
    (∃ rest, [Ev.scan, Ev.filenameMatch, Ev.earlyAst, Ev.processFiles, Ev.rank, Ev.limits] =
      (resolveSession none collabBase.envSession collabBase.genSession).2 ++
        [Ev.scan, Ev.filenameMatch, Ev.earlyAst] ++ rest) :=
  ⟨(C2_filename_matches_added_before_ast_filter).1 (fun _ => some 2) [("conf.rs", {4})]
    [("conf.rs", {(4, 9)})] {"conf.rs"} "conf.rs" {4} 2
    (by decide) (by decide) rfl (by decide),
   (C2_filename_matches_added_before_ast_filter).2 collabBase ["q"] none false true
    ⟨[("q", 0)], fun ts => decide (0 ∈ ts)⟩ [("a.rs", {(0, 1)})] []
    ⟨[⟨"a.rs", 1, 2⟩], [], none, none⟩
    [Ev.scan, Ev.filenameMatch, Ev.earlyAst, Ev.processFiles, Ev.rank, Ev.limits]
    rfl rfl rfl rfl⟩

/-! Early AST filter characterization (claims C3 and C9). -/

theorem earlyAstFilter_lookup_aux (ftm : FileTermMap) (eval : Finset Nat → Bool)
    (order : List String) (acc : FileTermMap × Finset String) (f : String) :
    alookup (order.foldl
      (fun acc f =>
        match alookup ftm f with
        | some tm => if eval (keysOf tm) then (ainsert acc.1 f tm, insert f acc.2) else acc
        | none => acc)
      acc).1 f =
    if f ∈ order ∧ (∃ tm, alookup ftm f = some tm ∧ eval (keysOf tm) = true) then alookup ftm f
    else alookup acc.1 f := by
  induction order generalizing acc with
  | nil => simp
  | cons g rest ih =>
    simp only [List.foldl_cons]
    rw [ih]
    by_cases hrest : f ∈ rest ∧ ∃ tm, alookup ftm f = some tm ∧ eval (keysOf tm) = true
    · rw [if_pos hrest, if_pos ⟨List.mem_cons_of_mem _ hrest.1, hrest.2⟩]
    · rw [if_neg hrest]
      by_cases hfg : f = g
      · subst hfg
        cases hopt : alookup ftm f with
        | some tm =>
          by_cases hev : eval (keysOf tm) = true
          · simp only [hev, if_pos]
            rw [alookup_ainsert_self, if_pos ⟨List.mem_cons_self _ _, tm, rfl, hev⟩]
          · have hc : ¬ (f ∈ f :: rest ∧
                ∃ tm1, (some tm : Option TermMap) = some tm1 ∧ eval (keysOf tm1) = true) := by
              intro hc
              rcases hc.2 with ⟨tm2, hl2, hev2⟩
              cases hl2
              exact hev hev2
            rw [if_neg hc]
            simp [hev]
        | none =>
          simp only
          have hc : ¬ (f ∈ f :: rest ∧
              ∃ tm1, (none : Option TermMap) = some tm1 ∧ eval (keysOf tm1) = true) := by
            intro hc
            rcases hc.2 with ⟨tm2, hl2, _⟩
            cases hl2
          rw [if_neg hc]
      · have hstep : alookup (match alookup ftm g with
            | some tm => if eval (keysOf tm) then (ainsert acc.1 g tm, insert g acc.2) else acc
            | none => acc).1 f = alookup acc.1 f := by
          cases hopt : alookup ftm g with
          | some tm =>
            by_cases hev : eval (keysOf tm) = true
            · simp only [hev, if_pos]
              exact alookup_ainsert_other _ _ (fun h => hfg h.symm)
            · simp [hev]
          | none => rfl
        rw [hstep, if_neg]
        intro hc
        rcases List.mem_cons.mp hc.1 with h | h
        · exact hfg h
        · exact hrest ⟨h, hc.2⟩

theorem earlyAstFilter_mem_aux (ftm : FileTermMap) (eval : Finset Nat → Bool)
    (order : List String) (acc : FileTermMap × Finset String) (f : String) :
    (f ∈ (order.foldl
      (fun acc f =>
        match alookup ftm f with
        | some tm => if eval (keysOf tm) then (ainsert acc.1 f tm, insert f acc.2) else acc
        | none => acc)
      acc).2) ↔
    ((f ∈ order ∧ ∃ tm, alookup ftm f = some tm ∧ eval (keysOf tm) = true) ∨ f ∈ acc.2) := by
  induction order generalizing acc with
  | nil => simp
  | cons g rest ih =>
    simp only [List.foldl_cons]
    rw [ih]
    constructor
    · intro h
      rcases h with h | h
      · exact Or.inl ⟨List.mem_cons_of_mem _ h.1, h.2⟩
      · match hl : alookup ftm g with
        | some tm =>
          by_cases hev : eval (keysOf tm) = true
          · simp only [hl, hev, if_pos] at h
            rcases Finset.mem_insert.mp h with h | h
            · exact Or.inl ⟨by rw [h]; exact List.mem_cons_self _ _, by rw [h]; exact ⟨tm, hl, hev⟩⟩
            · exact Or.inr h
          · simp only [hl, hev, if_neg, not_false_iff] at h
            exact Or.inr h
        | none =>
          simp only [hl] at h
          exact Or.inr h
    · intro h
      rcases h with h | h
      · rcases List.mem_cons.mp h.1 with hg | hr
        · subst hg
          rcases h.2 with ⟨tm, hl, hev⟩
          right
          simp only [hl, hev, if_pos]
          exact Finset.mem_insert_self _ _
        · exact Or.inl ⟨hr, h.2⟩
      · right
        match hl : alookup ftm g with
        | some tm =>
          by_cases hev : eval (keysOf tm) = true
          · simp only [hl, hev, if_pos]
            exact Finset.mem_insert_of_mem h
          · simp only [hl, hev, if_neg, not_false_iff]
            exact h
        | none =>
          simp only [hl]
          exact h

theorem earlyAstFilter_lookup (ftm : FileTermMap) (eval : Finset Nat → Bool)
    (order : List String) (f : String) :
    alookup (earlyAstFilter order ftm eval).1 f =
    if f ∈ order ∧ (∃ tm, alookup ftm f = some tm ∧ eval (keysOf tm) = true) then alookup ftm f
    else none := by
  unfold earlyAstFilter
  rw [earlyAstFilter_lookup_aux]
  rfl

theorem earlyAstFilter_mem (ftm : FileTermMap) (eval : Finset Nat → Bool)
    (order : List String) (f : String) :
    f ∈ (earlyAstFilter order ftm eval).2 ↔
    (f ∈ order ∧ ∃ tm, alookup ftm f = some tm ∧ eval (keysOf tm) = true) := by
  unfold earlyAstFilter
  rw [earlyAstFilter_mem_aux]
  simp

/-- C3: after early AST filtering, every file in the candidate set has a term
map that passed the AST evaluation with exclusions honored and is still in
the filtered Hit Map with the same term map; every entry of the filtered Hit
Map passed the evaluation over its matched term-index set and is in the
candidate set; and every file of the iterated candidate set whose term map
fails the evaluation, including files selected only via filename matching, is
in neither the filtered Hit Map nor the filtered candidate set. -/
theorem C3_early_ast_filter_sound
    (order : List String) (ftm : FileTermMap) (ast : Ast) :
    (∀ f ∈ (earlyAstFilter order ftm (fun ts => ast.evaluate ts true)).2,
      ∃ tm, alookup ftm f = some tm ∧ ast.evaluate (keysOf tm) true = true ∧
        alookup (earlyAstFilter order ftm (fun ts => ast.evaluate ts true)).1 f = some tm) ∧
    (∀ f tm, alookup (earlyAstFilter order ftm (fun ts => ast.evaluate ts true)).1 f = some tm →
      alookup ftm f = some tm ∧ ast.evaluate (keysOf tm) true = true ∧
        f ∈ (earlyAstFilter order ftm (fun ts => ast.evaluate ts true)).2) ∧
    (∀ f tm, f ∈ order → alookup ftm f = some tm → ast.evaluate (keysOf tm) true = false →
      alookup (earlyAstFilter order ftm (fun ts => ast.evaluate ts true)).1 f = none ∧
        f ∉ (earlyAstFilter order ftm (fun ts => ast.evaluate ts true)).2) := by
  refine ⟨?_, ?_, ?_⟩
  · intro f hf
    rcases (earlyAstFilter_mem ftm _ order f).mp hf with ⟨ho, tm, hl, hev⟩
    refine ⟨tm, hl, hev, ?_⟩
    rw [earlyAstFilter_lookup, if_pos ⟨ho, tm, hl, hev⟩, hl]
  · intro f tm hl
    rw [earlyAstFilter_lookup] at hl
    by_cases hc : f ∈ order ∧ ∃ tm2, alookup ftm f = some tm2 ∧ ast.evaluate (keysOf tm2) true = true
    · rw [if_pos hc] at hl
      rcases hc.2 with ⟨tm2, hl2, hev2⟩
      rw [hl] at hl2
      cases hl2
      exact ⟨hl, hev2, (earlyAstFilter_mem ftm _ order f).mpr ⟨hc.1, tm, hl, hev2⟩⟩
    · rw [if_neg hc] at hl
      cases hl
  · intro f tm ho hl hev
    have hc : ¬ (f ∈ order ∧ ∃ tm2, alookup ftm f = some tm2 ∧
        ast.evaluate (keysOf tm2) true = true) := by
      intro hc
      rcases hc.2 with ⟨tm2, hl2, hev2⟩
      rw [hl] at hl2
      cases hl2
      rw [hev] at hev2
      cases hev2
    constructor
    · rw [earlyAstFilter_lookup, if_neg hc]
    · intro hmem
      rcases (earlyAstFilter_mem ftm _ order f).mp hmem with ⟨ho2, tm2, hl2, hev2⟩
      exact hc ⟨ho2, tm2, hl2, hev2⟩

/-- Witness for C3 at a concrete input: two files, one matching term 0 which
the query `Term 0 AND NOT Term 1` accepts, one matching term 1 which it
rejects; the rejected file, present in the iterated set, is removed from both
the Hit Map and the candidate set. -/
theorem C3_early_ast_filter_sound_witness :
    (∃ tm, alookup [("a.rs", {(0, 1)}), ("b.rs", {(1, 3)})] "a.rs" = some tm ∧
      (Ast.and (.term 0 false) (.term 1 true)).evaluate (keysOf tm) true = true ∧
      alookup (earlyAstFilter ["a.rs", "b.rs"] [("a.rs", {(0, 1)}), ("b.rs", {(1, 3)})]
        (fun ts => (Ast.and (.term 0 false) (.term 1 true)).evaluate ts true)).1 "a.rs" = some tm) ∧
    (alookup (earlyAstFilter ["a.rs", "b.rs"] [("a.rs", {(0, 1)}), ("b.rs", {(1, 3)})]
        (fun ts => (Ast.and (.term 0 false) (.term 1 true)).evaluate ts true)).1 "b.rs" = none ∧
      "b.rs" ∉ (earlyAstFilter ["a.rs", "b.rs"] [("a.rs", {(0, 1)}), ("b.rs", {(1, 3)})]
        (fun ts => (Ast.and (.term 0 false) (.term 1 true)).evaluate ts true)).2) :=
  ⟨(C3_early_ast_filter_sound ["a.rs", "b.rs"] [("a.rs", {(0, 1)}), ("b.rs", {(1, 3)})]
      (Ast.and (.term 0 false) (.term 1 true))).1 "a.rs" (by decide),
   (C3_early_ast_filter_sound ["a.rs", "b.rs"] [("a.rs", {(0, 1)}), ("b.rs", {(1, 3)})]
      (Ast.and (.term 0 false) (.term 1 true))).2.2 "b.rs" {(1, 3)}
      (by decide) (by decide) (by decide)⟩

/-! Cache-failure recovery (claims C5, C6, C7). -/

theorem tail_earlyCache_error_eq (c : Collab) (noMerge : Bool) (sess : Option String)
    (gen : Bool) (plan : QueryPlan) (ftm : FileTermMap) (allF : Finset String) (e : String) :
    (searchPipelineTail { c with earlyCache := fun _ _ => .error e }
        noMerge sess gen plan ftm allF).1 =
    (searchPipelineTail { c with earlyCache := fun _ m => .ok (m, 0) }
        noMerge sess gen plan ftm allF).1 := by
  cases sess <;> rfl

theorem tail_finalCache_error_eq (c : Collab) (noMerge : Bool) (sess : Option String)
    (gen : Bool) (plan : QueryPlan) (ftm : FileTermMap) (allF : Finset String) (e : String) :
    (searchPipelineTail { c with finalCache := fun _ _ => .error e }
        noMerge sess gen plan ftm allF).1 =
    (searchPipelineTail { c with finalCache := fun _ l => .ok (l, 0) }
        noMerge sess gen plan ftm allF).1 := by
  cases sess <;> rfl

theorem tail_addCache_error_eq (c : Collab) (noMerge : Bool) (sess : Option String)
    (gen : Bool) (plan : QueryPlan) (ftm : FileTermMap) (allF : Finset String) (e : String) :
    (searchPipelineTail { c with addCache := fun _ _ => .error e }
        noMerge sess gen plan ftm allF).1 =
    (searchPipelineTail { c with addCache := fun _ _ => .ok () }
        noMerge sess gen plan ftm allF).1 := by
  cases sess with
  | none => rfl
  | some sid =>
    unfold searchPipelineTail
    dsimp only
    split <;> rfl

theorem perform_probe_total (c : Collab) (queries : List String) (session : Option String)
    (filesOnly includeFilenames noMerge : Bool)
    (h1 : ∀ p, ∃ m, c.scanRes p = .ok m) (h2 : ∀ p, ∃ l, c.filenameRes p = .ok l) :
    ∃ out, perform_probe c queries session filesOnly includeFilenames noMerge = .ok out := by
  unfold perform_probe
  cases hp : parseQueries c.cqp queries with
  | none => exact ⟨_, rfl⟩
  | some plan =>
    dsimp only
    obtain ⟨m, hm⟩ := h1 plan
    rw [hm]
    dsimp only
    cases includeFilenames with
    | true =>
      obtain ⟨l, hl⟩ := h2 plan
      rw [hl]
      dsimp only
      cases filesOnly <;> exact ⟨_, rfl⟩
    | false =>
      cases filesOnly <;> exact ⟨_, rfl⟩

/-- C5 amended: an error in a session-cache operation never makes the search
return an error (the only error propagations are the scan and
filename-matching collaborators); an erroring early or final cache filter
yields the same results as that operation filtering nothing, and an erroring
insertion the same results as a successful one, so subsequent cache
operations still run rather than caching being disabled for the remainder of
the call; each erroring cache operation writes its one-line stderr message
into the trace. -/
theorem C5_cache_errors_never_fail_search :
    (∀ (c : Collab) (queries : List String) (session : Option String)
        (filesOnly includeFilenames noMerge : Bool),
      (∀ p, ∃ m, c.scanRes p = .ok m) →
      (∀ p, ∃ l, c.filenameRes p = .ok l) →
      ∃ out, perform_probe c queries session filesOnly includeFilenames noMerge = .ok out) ∧
    (∀ (c : Collab) (noMerge : Bool) (sess : Option String) (gen : Bool)
        (plan : QueryPlan) (ftm : FileTermMap) (allF : Finset String) (e : String),
      (searchPipelineTail { c with earlyCache := fun _ _ => .error e }
          noMerge sess gen plan ftm allF).1 =
      (searchPipelineTail { c with earlyCache := fun _ m => .ok (m, 0) }
          noMerge sess gen plan ftm allF).1) ∧
    (∀ (c : Collab) (noMerge : Bool) (sess : Option String) (gen : Bool)
        (plan : QueryPlan) (ftm : FileTermMap) (allF : Finset String) (e : String),
      (searchPipelineTail { c with finalCache := fun _ _ => .error e }
          noMerge sess gen plan ftm allF).1 =
      (searchPipelineTail { c with finalCache := fun _ l => .ok (l, 0) }
          noMerge sess gen plan ftm allF).1) ∧
    (∀ (c : Collab) (noMerge : Bool) (sess : Option String) (gen : Bool)
        (plan : QueryPlan) (ftm : FileTermMap) (allF : Finset String) (e : String),
      (searchPipelineTail { c with addCache := fun _ _ => .error e }
          noMerge sess gen plan ftm allF).1 =
      (searchPipelineTail { c with addCache := fun _ _ => .ok () }
          noMerge sess gen plan ftm allF).1) ∧
    (∀ (c : Collab) (noMerge gen : Bool) (sid : String) (plan : QueryPlan)
        (ftm : FileTermMap) (allF : Finset String) (e : String),
      c.earlyCache sid ftm = .error e →
      Ev.err ("Error applying early cache: " ++ e) ∈
        (searchPipelineTail c noMerge (some sid) gen plan ftm allF).2) ∧
    (∀ (c : Collab) (noMerge gen : Bool) (sid : String) (plan : QueryPlan)
        (ftm : FileTermMap) (allF : Finset String) (e : String),
      (∀ l, c.finalCache sid l = .error e) →
      Ev.err ("Error applying cache: " ++ e) ∈
        (searchPipelineTail c noMerge (some sid) gen plan ftm allF).2) := by
  refine ⟨perform_probe_total,
    tail_earlyCache_error_eq, tail_finalCache_error_eq, tail_addCache_error_eq, ?_, ?_⟩
  · intro c noMerge gen sid plan ftm allF e hec
    unfold searchPipelineTail
    dsimp only
    rw [hec]
    simp
  · intro c noMerge gen sid plan ftm allF e hfc
    unfold searchPipelineTail
    dsimp only
    rw [hfc]
    simp

/-- C5 counterexample to caching being disabled for the remainder of the
call: with an erroring early cache filter and a final cache filter that
removes the only ranked block, the search still applies the final filter
after the early error (the returned result set is empty with one cached
block counted), whereas the no-session run returns the block. -/
theorem C5_cache_error_counterexample :
    perform_probe { collabBase with
        earlyCache := (fun _ _ => .error "io")
        finalCache := (fun _ _ => .ok ([], 1)) } ["q"] (some "sid") false false true =
      .ok (⟨[], [], none, some 1⟩,
        [Ev.scan, Ev.earlyAst, Ev.earlyCache, Ev.err "Error applying early cache: io",
         Ev.processFiles, Ev.rank, Ev.finalCache, Ev.limits, Ev.cacheInsert,
         Ev.out "Session ID: sid"]) ∧
    perform_probe { collabBase with
        earlyCache := (fun _ _ => .error "io")
        finalCache := (fun _ _ => .ok ([], 1)) } ["q"] none false false true =
      .ok (⟨[⟨"a.rs", 1, 2⟩], [], none, none⟩,
        [Ev.scan, Ev.earlyAst, Ev.processFiles, Ev.rank, Ev.limits]) := by
  constructor <;> rfl

/-- Witness for C5 at concrete inputs: a run with every cache operation
erroring still returns successfully. -/
theorem C5_cache_errors_never_fail_search_witness :
    (∃ out, perform_probe { collabBase with
      earlyCache := (fun _ _ => .error "io")
      finalCache := (fun _ _ => .error "io")
      addCache := (fun _ _ => .error "io") }
      ["q"] (some "sid") false false true = .ok out) ∧
    Ev.err ("Error applying early cache: " ++ "io") ∈
      (searchPipelineTail { collabBase with earlyCache := (fun _ _ => .error "io") }
        true (some "sid") false ⟨[("q", 0)], fun ts => decide (0 ∈ ts)⟩
        [("a.rs", {(0, 1)})] {"a.rs"}).2 :=
  ⟨C5_cache_errors_never_fail_search.1 _ ["q"] (some "sid") false false true
    (fun _ => ⟨_, rfl⟩) (fun _ => ⟨_, rfl⟩),
   C5_cache_errors_never_fail_search.2.2.2.2.1
    { collabBase with earlyCache := (fun _ _ => .error "io") } true false "sid"
    ⟨[("q", 0)], fun ts => decide (0 ∈ ts)⟩ [("a.rs", {(0, 1)})] {"a.rs"} "io" rfl⟩

/-- C6 counterexample: in a run with an active session, nonempty results and
merging enabled, a cache insertion happens before the merge step (the limited
results are inserted, then merged, then the merged results are inserted), so
the insertion of returned blocks is not the single last pipeline step after
the optional merge. -/
theorem C6_pipeline_order_counterexample :
    perform_probe collabBase ["q"] (some "sid") false false false =
      .ok (⟨[⟨"a.rs", 1, 2⟩], [], none, none⟩,
        [Ev.scan, Ev.earlyAst, Ev.earlyCache, Ev.processFiles, Ev.rank, Ev.finalCache,
         Ev.limits, Ev.cacheInsert, Ev.merge, Ev.cacheInsert, Ev.out "Session ID: sid"]) ∧
    ([Ev.scan, Ev.earlyAst, Ev.earlyCache, Ev.processFiles, Ev.rank, Ev.finalCache,
      Ev.limits, Ev.cacheInsert, Ev.merge, Ev.cacheInsert,
      Ev.out "Session ID: sid"].indexOf Ev.cacheInsert <
     [Ev.scan, Ev.earlyAst, Ev.earlyCache, Ev.processFiles, Ev.rank, Ev.finalCache,
      Ev.limits, Ev.cacheInsert, Ev.merge, Ev.cacheInsert,
      Ev.out "Session ID: sid"].indexOf Ev.merge) := by
  constructor
  · rfl
  · decide

/-- C6 amended: with an active session and successful cache operations, the
stage order of the pipeline tail is early cache filter, per-file processing,
ranking, final cache filter, limits, insertion of the limited results, then,
exactly when merging runs, the merge followed by insertion of the merged
results, with only the session-id console line after; so the final cache
filter runs after ranking and before limits, and insertion happens once
after limits and, when merging runs, once more after the merge as the last
cache operation. -/
theorem C6_pipeline_order_amended (c : Collab) (noMerge gen : Bool) (sid : String)
    (plan : QueryPlan) (ftm : FileTermMap) (allF : Finset String)
    (ecf : FileTermMap → FileTermMap × Nat) (fcf : List Block → List Block × Nat)
    (hec : ∀ m, c.earlyCache sid m = .ok (ecf m))
    (hfc : ∀ l, c.finalCache sid l = .ok (fcf l))
    (hac : ∀ l, c.addCache sid l = .ok ()) :
    ∃ (mergeRan : Bool) (msg : String),
      (searchPipelineTail c noMerge (some sid) gen plan ftm allF).2 =
        [Ev.earlyCache, Ev.processFiles, Ev.rank, Ev.finalCache, Ev.limits, Ev.cacheInsert] ++
        (if mergeRan then [Ev.merge, Ev.cacheInsert] else []) ++ [Ev.out msg] := by
  have hsplit : ∀ (C : Prop) (inst : Decidable C) (A B : Limited) (t : List Ev),
      (@ite _ C inst (A, [Ev.merge] ++ t) (B, ([] : List Ev))).2 =
        if @decide C inst then [Ev.merge] ++ t else [] := by
    intro C inst A B t
    by_cases hC : C
    · simp [hC]
    · simp [hC]
  unfold searchPipelineTail
  dsimp only
  simp only [hec, hfc, hac]
  rw [hsplit]
  cases gen
  · exact ⟨_, _, rfl⟩
  · exact ⟨_, _, rfl⟩

/-- Witness for C6 amended at concrete inputs: the trace of a concrete tail
run with an active session. -/
theorem C6_pipeline_order_amended_witness :
    ∃ (mergeRan : Bool) (msg : String),
      (searchPipelineTail collabBase false (some "sid") false
        ⟨[("q", 0)], fun ts => decide (0 ∈ ts)⟩ [("a.rs", {(0, 1)})] {"a.rs"}).2 =
        [Ev.earlyCache, Ev.processFiles, Ev.rank, Ev.finalCache, Ev.limits, Ev.cacheInsert] ++
        (if mergeRan then [Ev.merge, Ev.cacheInsert] else []) ++ [Ev.out msg] :=
  C6_pipeline_order_amended collabBase false false "sid"
    ⟨[("q", 0)], fun ts => decide (0 ∈ ts)⟩ [("a.rs", {(0, 1)})] {"a.rs"}
    (fun m => (m, 0)) (fun l => (l, 0)) (fun _ => rfl) (fun _ => rfl) (fun _ => rfl)

/-- C7 amended: when the query fails to parse, `perform_probe` prints the
one-line notice "Failed to parse query as AST expression" to stdout (not
stderr) and returns successfully with empty results, empty skipped files, no
limits applied and no cached-blocks count. -/
theorem C7_parse_failure_stdout_empty (c : Collab) (queries : List String)
    (session : Option String) (filesOnly includeFilenames noMerge : Bool)
    (hp : parseQueries c.cqp queries = none) :
    perform_probe c queries session filesOnly includeFilenames noMerge =
      .ok (⟨[], [], none, none⟩,
        (resolveSession session c.envSession c.genSession).2 ++
          [Ev.out "Failed to parse query as AST expression"]) := by
  unfold perform_probe
  rw [hp]

/-- C7 counterexample: on a concrete unparseable query the run returns empty
results with the notice as a stdout line and no stderr line at all, so the
claims that the notice is reported via stderr fails; the empty result set
itself is as claimed. -/
theorem C7_parse_failure_counterexample :
    perform_probe { collabBase with cqp := fun _ => none } ["("] none false false false =
      .ok (⟨[], [], none, none⟩, [Ev.out "Failed to parse query as AST expression"]) ∧
    hasErrEv [Ev.out "Failed to parse query as AST expression"] = false := by
  constructor
  · rfl
  · rfl

/-- Witness for C7 amended at a concrete input. -/
theorem C7_parse_failure_stdout_empty_witness :
    perform_probe { collabBase with cqp := fun _ => none } ["x"] none false false false =
      .ok (⟨[], [], none, none⟩,
        (resolveSession none ({ collabBase with cqp := fun _ => none } : Collab).envSession
          ({ collabBase with cqp := fun _ => none } : Collab).genSession).2 ++
          [Ev.out "Failed to parse query as AST expression"]) :=
  C7_parse_failure_stdout_empty _ ["x"] none false false false rfl

/-! Ranking determinism (claim C9). -/

theorem rankKey_inj (score : Block → Int) {a b : Block}
    (h : rankKey score a = rankKey score b) : a = b := by
  simp only [rankKey, toLex_inj, Prod.mk.injEq, neg_inj] at h
  obtain ⟨-, h2, h3, h4⟩ := h
  cases a
  cases b
  simp only at h2 h3 h4
  simp [h2, h3, h4]

theorem rankBlocks_perm_eq (score : Block → Int) {l₁ l₂ : List Block} (h : l₁.Perm l₂) :
    rankBlocks score l₁ = rankBlocks score l₂ := by
  have htrans : ∀ a b c : Block, rankLE score a b = true → rankLE score b c = true →
      rankLE score a c = true := by
    intro a b c hab hbc
    simp only [rankLE, decide_eq_true_eq] at hab hbc ⊢
    exact le_trans hab hbc
  have htotal : ∀ a b : Block, (rankLE score a b || rankLE score b a) = true := by
    intro a b
    simp only [rankLE, Bool.or_eq_true, decide_eq_true_eq]
    exact le_total _ _
  haveI : IsAntisymm Block (fun a b => rankLE score a b = true) := ⟨by
    intro a b hab hba
    simp only [rankLE, decide_eq_true_eq] at hab hba
    exact rankKey_inj score (le_antisymm hab hba)⟩
  apply List.eq_of_perm_of_sorted (r := fun a b => rankLE score a b = true)
  · exact (List.mergeSort_perm l₁ _).trans (h.trans (List.mergeSort_perm l₂ _).symm)
  · exact List.sorted_mergeSort htrans htotal l₁
  · exact List.sorted_mergeSort htrans htotal l₂

theorem tail_iterOrder_irrelevant (c : Collab) (ord2 : Finset String → List String)
    (score : Block → Int) (noMerge gen : Bool) (plan : QueryPlan)
    (ftm ftm' : FileTermMap) (allF : Finset String)
    (hrank : c.rank = fun _ l => rankBlocks score l)
    (hlk : ∀ f, alookup ftm f = alookup ftm' f)
    (hord1 : (c.iterOrder allF).Nodup ∧ ∀ f, f ∈ c.iterOrder allF ↔ f ∈ allF)
    (hord2 : (ord2 allF).Nodup ∧ ∀ f, f ∈ ord2 allF ↔ f ∈ allF) :
    searchPipelineTail c noMerge none gen plan ftm allF =
    searchPipelineTail { c with iterOrder := ord2 } noMerge none gen plan ftm' allF := by
  have hperm : (c.iterOrder allF).Perm (ord2 allF) := by
    apply List.perm_of_nodup_nodup_toFinset_eq hord1.1 hord2.1
    ext f
    simp only [List.mem_toFinset]
    rw [hord1.2 f, hord2.2 f]
  have hg : (fun f => match alookup ftm' f with
      | some tm => c.process plan f tm
      | none => ([] : List Block)) = (fun f => match alookup ftm f with
      | some tm => c.process plan f tm
      | none => []) := by
    funext f
    rw [hlk f]
  have hpermres : ((c.iterOrder allF).flatMap fun f => match alookup ftm f with
      | some tm => c.process plan f tm
      | none => []).Perm ((ord2 allF).flatMap fun f => match alookup ftm' f with
      | some tm => c.process plan f tm
      | none => []) := by
    rw [hg]
    exact List.Perm.flatMap_right _ hperm
  have hranked : c.rank plan ((c.iterOrder allF).flatMap fun f => match alookup ftm f with
      | some tm => c.process plan f tm
      | none => []) = c.rank plan ((ord2 allF).flatMap fun f => match alookup ftm' f with
      | some tm => c.process plan f tm
      | none => []) := by
    rw [hrank]
    exact rankBlocks_perm_eq score hpermres
  unfold searchPipelineTail
  dsimp only
  rw [hranked]

/-- C9 amended: with no session cache and the ranker modelled from the spec
as a sort by a deterministic total key, the non-files-only search output,
results and trace alike, does not depend on the hash-set iteration order:
two invocations whose iteration oracles are both valid enumerations (no
duplicates, same membership) produce identical output. The files-only path,
which skips ranking, is exempt here and refuted separately. -/
theorem C9_determinism_amended (c : Collab) (ord2 : Finset String → List String)
    (score : Block → Int) (queries : List String) (session : Option String)
    (includeFilenames noMerge : Bool)
    (hrank : c.rank = fun _ l => rankBlocks score l)
    (hord1 : ∀ s : Finset String, (c.iterOrder s).Nodup ∧ ∀ f, f ∈ c.iterOrder s ↔ f ∈ s)
    (hord2 : ∀ s : Finset String, (ord2 s).Nodup ∧ ∀ f, f ∈ ord2 s ↔ f ∈ s)
    (hsession : session = none) (henv : c.envSession = none) :
    perform_probe c queries session false includeFilenames noMerge =
    perform_probe { c with iterOrder := ord2 } queries session false includeFilenames noMerge := by
  subst hsession
  unfold perform_probe
  dsimp only
  rw [henv]
  dsimp only [resolveSession]
  cases hp : parseQueries c.cqp queries with
  | none => rfl
  | some plan =>
    dsimp only
    cases hs : c.scanRes plan with
    | error e => rfl
    | ok ftm0 =>
      dsimp only
      have main : ∀ (F : FileTermMap) (A : Finset String) (trFm : List Ev),
          Except.ok ((searchPipelineTail c noMerge none false plan
              (earlyAstFilter (c.iterOrder A) F (fun ts => plan.evalAst ts)).1
              (earlyAstFilter (c.iterOrder A) F (fun ts => plan.evalAst ts)).2).1,
            ([] : List Ev) ++ [Ev.scan] ++ trFm ++ [Ev.earlyAst] ++
              (searchPipelineTail c noMerge none false plan
                (earlyAstFilter (c.iterOrder A) F (fun ts => plan.evalAst ts)).1
                (earlyAstFilter (c.iterOrder A) F (fun ts => plan.evalAst ts)).2).2) =
          (Except.ok ((searchPipelineTail { c with iterOrder := ord2 } noMerge none false plan
              (earlyAstFilter (ord2 A) F (fun ts => plan.evalAst ts)).1
              (earlyAstFilter (ord2 A) F (fun ts => plan.evalAst ts)).2).1,
            ([] : List Ev) ++ [Ev.scan] ++ trFm ++ [Ev.earlyAst] ++
              (searchPipelineTail { c with iterOrder := ord2 } noMerge none false plan
                (earlyAstFilter (ord2 A) F (fun ts => plan.evalAst ts)).1
                (earlyAstFilter (ord2 A) F (fun ts => plan.evalAst ts)).2).2) :
            Except String (Limited × List Ev)) := by
        intro F A trFm
        have h1 : (earlyAstFilter (ord2 A) F (fun ts => plan.evalAst ts)).2 =
            (earlyAstFilter (c.iterOrder A) F (fun ts => plan.evalAst ts)).2 := by
          ext f
          rw [earlyAstFilter_mem, earlyAstFilter_mem]
          constructor
          · rintro ⟨hm, hpass⟩
            exact ⟨((hord1 A).2 f).mpr (((hord2 A).2 f).mp hm), hpass⟩
          · rintro ⟨hm, hpass⟩
            exact ⟨((hord2 A).2 f).mpr (((hord1 A).2 f).mp hm), hpass⟩
        have h2 : ∀ f, alookup (earlyAstFilter (c.iterOrder A) F (fun ts => plan.evalAst ts)).1 f =
            alookup (earlyAstFilter (ord2 A) F (fun ts => plan.evalAst ts)).1 f := by
          intro f
          rw [earlyAstFilter_lookup, earlyAstFilter_lookup]
          apply if_congr _ rfl rfl
          constructor
          · rintro ⟨hm, hpass⟩
            exact ⟨((hord2 A).2 f).mpr (((hord1 A).2 f).mp hm), hpass⟩
          · rintro ⟨hm, hpass⟩
            exact ⟨((hord1 A).2 f).mpr (((hord2 A).2 f).mp hm), hpass⟩
        rw [h1]
        rw [tail_iterOrder_irrelevant c ord2 score noMerge false plan
          (earlyAstFilter (c.iterOrder A) F (fun ts => plan.evalAst ts)).1
          (earlyAstFilter (ord2 A) F (fun ts => plan.evalAst ts)).1
          (earlyAstFilter (c.iterOrder A) F (fun ts => plan.evalAst ts)).2
          hrank h2 (hord1 _) (hord2 _)]
      cases includeFilenames with
      | true =>
        cases hf : c.filenameRes plan with
        | error e => rfl
        | ok fms =>
          dsimp only
          exact main (addFilenameMatches c.readLineCount fms ftm0 (ftmKeys ftm0)).1
            (addFilenameMatches c.readLineCount fms ftm0 (ftmKeys ftm0)).2 [Ev.filenameMatch]
      | false =>
        exact main ftm0 (ftmKeys ftm0) []

/-- C9 counterexample: in files-only mode, which skips ranking, two hash-set
iteration orders of the same two matched files, both valid enumerations of
that set, produce result lists in different orders, so output is not
determined by the invocation inputs alone. -/
theorem C9_determinism_counterexample :
    perform_probe { collabTwo with iterOrder := fun _ => ["a.rs", "b.rs"] }
        ["q"] none true false true =
      .ok (⟨[⟨"a.rs", 1, 1⟩, ⟨"b.rs", 1, 1⟩], [], none, none⟩,
        [Ev.scan, Ev.earlyAst, Ev.limits]) ∧
    perform_probe { collabTwo with iterOrder := fun _ => ["b.rs", "a.rs"] }
        ["q"] none true false true =
      .ok (⟨[⟨"b.rs", 1, 1⟩, ⟨"a.rs", 1, 1⟩], [], none, none⟩,
        [Ev.scan, Ev.earlyAst, Ev.limits]) ∧
    (⟨[⟨"a.rs", 1, 1⟩, ⟨"b.rs", 1, 1⟩], [], none, none⟩ : Limited) ≠
      ⟨[⟨"b.rs", 1, 1⟩, ⟨"a.rs", 1, 1⟩], [], none, none⟩ := by
  refine ⟨rfl, rfl, by decide⟩

/-- Witness for C9 amended at concrete inputs: the sorted iteration order and
its reverse give identical output on the ranked path. -/
theorem C9_determinism_amended_witness :
    perform_probe collabTwo ["q"] none false false true =
    perform_probe { collabTwo with iterOrder := fun s => (s.sort (· ≤ ·)).reverse }
      ["q"] none false false true :=
  C9_determinism_amended collabTwo (fun s => (s.sort (· ≤ ·)).reverse) (fun _ => 0)
    ["q"] none false true rfl
    (fun s => ⟨Finset.sort_nodup _ s, fun f => Finset.mem_sort _⟩)
    (fun s => ⟨by simp [List.nodup_reverse, Finset.sort_nodup],
      fun f => by simp [Finset.mem_sort]⟩)
    rfl rfl

/-! Multi-query combination (claim C10). -/

theorem parseQueries_join (cqp : String → Option QueryPlan) (queries : List String)
    (hq : 1 < queries.length) :
    parseQueries cqp queries = parseQueries cqp [String.intercalate " AND " queries] := by
  unfold parseQueries
  rw [if_pos hq]
  simp

/-- C10: when more than one query string is supplied, the pipeline behaves
exactly as if the single query obtained by joining them with " AND " had been
supplied, and a single query string is parsed directly. -/
theorem C10_multi_query_joined (c : Collab) (queries : List String)
    (session : Option String) (filesOnly includeFilenames noMerge : Bool)
    (hq : 1 < queries.length) :
    perform_probe c queries session filesOnly includeFilenames noMerge =
      perform_probe c [String.intercalate " AND " queries] session filesOnly
        includeFilenames noMerge ∧
    (∀ q : String, parseQueries c.cqp [q] = c.cqp q) := by
  constructor
  · unfold perform_probe
    rw [parseQueries_join c.cqp queries hq]
  · intro q
    rfl

/-- Witness for C10 at concrete inputs: the two-query list ["a", "b"] gives
the same run as the single query "a AND b". -/
theorem C10_multi_query_joined_witness :
    perform_probe collabBase ["a", "b"] none false false true =
      perform_probe collabBase [String.intercalate " AND " ["a", "b"]] none false false true ∧
    parseQueries collabBase.cqp ["a AND b"] = collabBase.cqp "a AND b" :=
  ⟨(C10_multi_query_joined collabBase ["a", "b"] none false false true (by decide)).1,
   (C10_multi_query_joined collabBase ["a", "b"] none false false true (by decide)).2 "a AND b"⟩

end Probe
